import Mathlib

/-!
Verification development for the chat route of `chat-with-geogebra`
(`src/app/api/chat/route.ts`).

Text is modelled as `List Char` (`Str`).  The JavaScript string helpers
used by the route (regex split on `[\(\s,]`, `trim`, `split('\n')`,
the `/```geogebra\n([\s\S]*?)```/g` exec loop) are embedded explicitly.
-/

abbrev Str := List Char

/-- The character class matched by JavaScript `\s` (WhiteSpace ∪ LineTerminator). -/
def isJsSpace (c : Char) : Bool :=
  c == ' ' || c == '\t' || c == '\n' || c == '\r' || c == '\x0b' || c == '\x0c' ||
  c == ' ' || c == ' ' || (' ' ≤ c && c ≤ ' ') ||
  c == ' ' || c == ' ' || c == ' ' || c == ' ' ||
  c == '　' || c == '﻿'

/-- JavaScript `String.prototype.trim`. -/
def jsTrim (s : Str) : Str :=
  ((s.dropWhile isJsSpace).reverse.dropWhile isJsSpace).reverse

/-- JavaScript `str.split('\n')` (always returns at least one piece). -/
def splitOnNl : Str → List Str
  | [] => [[]]
  | c :: cs =>
    if c = '\n' then [] :: splitOnNl cs
    else
      match splitOnNl cs with
      | [] => [[c]]
      | l :: ls => (c :: l) :: ls

/-- Whether `pat` is an initial segment of `s`. -/
def isPref : Str → Str → Bool
  | [], _ => true
  | _ :: _, [] => false
  | a :: as, b :: bs => a == b && isPref as bs

/-- First occurrence of `pat` in `s`: returns the part before the
occurrence and the part after it. -/
def findSplit (pat : Str) (s : Str) : Option (Str × Str) :=
  if isPref pat s then some ([], s.drop pat.length)
  else
    match s with
    | [] => none
    | c :: cs => (findSplit pat cs).map (fun pr => (c :: pr.1, pr.2))

/-- Substring test, via `findSplit`. -/
def containsSub (pat : Str) (s : Str) : Bool :=
  (findSplit pat s).isSome

/-- The opening fence matched by the extraction regex: three backticks,
`geogebra`, newline. -/
def opener : Str := "```geogebra\n".data

/-- The closing fence: three backticks. -/
def closer : Str := "```".data

/-- The backtick character (both fences start with it). -/
def tick : Char := '`'

/-- The `regex.exec` loop of `GeoGebraValidator.extractCommands`, fuel-indexed:
repeatedly find an opening fence, then lazily the next closing fence, and
collect the raw block between them.  An opener with no closer after it ends
the loop with no further blocks (the regex fails to match). -/
def extractFuel : Nat → Str → List Str
  | 0, _ => []
  | f + 1, s =>
    match findSplit opener s with
    | none => []
    | some pr =>
      match findSplit closer pr.2 with
      | none => []
      | some pr2 => pr2.1 :: extractFuel f pr2.2

/-- The list of raw fenced blocks of `s`, in document order.  Fuel
`s.length + 1` always suffices: each match consumes ≥ 15 characters. -/
def extractRaw (s : Str) : List Str :=
  extractFuel (s.length + 1) s

/-- Per-block line processing of `extractCommands`: split on `'\n'`,
trim each line, drop empty lines. -/
def blockCommands (b : Str) : List Str :=
  ((splitOnNl b).map jsTrim).filter (fun line => decide (line.length > 0))

/-- Embeds `GeoGebraValidator.extractCommands`. -/
def extractCommands (text : Str) : List Str :=
  ((extractRaw text).map blockCommands).flatten

/-- Embeds `GeoGebraValidator.VALID_COMMANDS`. -/
def VALID_COMMANDS : List Str :=
  ["Point".data, "Vector".data, "Segment".data, "Line".data, "Ray".data,
   "Circle".data, "Ellipse".data, "Polygon".data, "RegularPolygon".data,
   "Slope".data, "Function".data, "Curve".data, "ParametricCurve".data,
   "PolarCurve".data,
   "Slider".data, "StartAnimation".data, "SetAnimationSpeed".data,
   "SetConditionToShowObject".data, "SetTrace".data, "Locus".data,
   "Sequence".data, "List".data, "If".data, "Text".data, "RunClickScript".data,
   "Intersect".data, "Midpoint".data, "Distance".data, "Angle".data,
   "Area".data, "Perimeter".data, "Length".data, "Reflect".data,
   "Rotate".data, "Translate".data, "Dilate".data]

/-- The separator class of `command.split(/[\(\s,]/)`. -/
def isCmdSep (c : Char) : Bool :=
  c == '(' || isJsSpace c || c == ','

/-- Embeds `command.split(/[\(\s,]/)[0].trim()`: the segment before the
first separator, trimmed. -/
def commandName (command : Str) : Str :=
  jsTrim (command.takeWhile (fun c => !isCmdSep c))

/-- The message prefix of the unknown-command error
(`未知的GeoGebra命令: ` = "unknown GeoGebra command: "). -/
def errPre : Str := "未知的GeoGebra命令: ".data

structure CmdResult where
  isValid : Bool
  error : Option Str
deriving DecidableEq

/-- Embeds `GeoGebraValidator.validateCommand`. -/
def validateCommand (command : Str) : CmdResult :=
  let name := commandName command
  if VALID_COMMANDS.contains name then { isValid := true, error := none }
  else { isValid := false, error := some (errPre ++ name) }

structure ValidationResult where
  isValid : Bool
  errors : List Str
deriving DecidableEq

/-- The error-collecting loop of `GeoGebraValidator.validateCommands`;
an error is pushed when `!result.isValid && result.error` (JS truthiness,
so an empty error string would be skipped). -/
def collectErrors : List Str → List Str
  | [] => []
  | c :: cs =>
    let r := validateCommand c
    match r.error with
    | some e => if !r.isValid && !e.isEmpty then e :: collectErrors cs else collectErrors cs
    | none => collectErrors cs

/-- Embeds `GeoGebraValidator.validateCommands`. -/
def validateCommands (commands : List Str) : ValidationResult :=
  let errors := collectErrors commands
  { isValid := errors.length == 0, errors := errors }

/-- The warning chunk synthesized by the transform stream when invalid
commands are found: fixed prefix, errors joined with `'\n'`, fixed suffix. -/
def warningText (errors : List Str) : Str :=
  "\n\n⚠️ 警告：发现以下无效的GeoGebra命令：\n".data ++
    List.intercalate "\n".data errors ++
    "\n请检查命令是否正确。".data

/-- The `transform` callback of the `TransformStream` in `POST`
(route.ts lines 167-184): the sequence of chunks enqueued for one
input chunk.  The original chunk object is always re-enqueued unmodified. -/
def transformChunk (chunk : Str) : List Str :=
  let commands := extractCommands chunk
  let warnings :=
    if commands.length > 0 then
      let validation := validateCommands commands
      if !validation.isValid then [warningText validation.errors] else []
    else []
  warnings ++ [chunk]

/-! ## The `POST` request handler (route.ts lines 10-214) -/

structure Msg where
  role : Str
  content : Str
deriving DecidableEq

/-- A custom model's `apiConfig` as received in the request JSON: each
field may be absent. -/
structure ApiConfigJs where
  domain : Option Str
  path : Option Str
  key : Option Str
deriving DecidableEq

/-- A `customModels` entry; `apiConfig` itself may be absent (the route
reads `customModel.apiConfig?.domain` but `customModel.apiConfig.key`). -/
structure ModelConfigJs where
  name : Str
  provider : Option Str
  modelType : Option Str
  apiConfig : Option ApiConfigJs
deriving DecidableEq

structure ConfigSettingsJs where
  modelType : Option Str
  systemPrompt : Option Str
  customModels : Option (List ModelConfigJs)
deriving DecidableEq

/-- The environment variables read by the route. -/
structure Env where
  OPENROUTER_API_KEY : Option Str
  OPENAI_API_KEY : Option Str
  ANTHROPIC_API_KEY : Option Str
  DEEPSEEK_API_KEY : Option Str
deriving DecidableEq

/-- JavaScript `a || d` for an optional string `a`: default on `undefined`
or the empty string (falsy). -/
def jsOrStr (a : Option Str) (d : Str) : Str :=
  match a with
  | none => d
  | some s => if s = [] then d else s

/-- JavaScript truthiness of `process.env.X` (undefined and `""` are falsy). -/
def truthyEnv : Option Str → Bool
  | none => false
  | some s => !s.isEmpty

inductive ProviderKind where
  | anthropic
  | deepseek
  | openai
deriving DecidableEq

/-- The upstream streaming call the handler issues on the success path:
the adapter kind with the arguments passed to `createAnthropic` /
`createDeepSeek` / `createOpenAI` (`apiKey`, `baseURL`), the model id,
and the `streamText` arguments. -/
structure StreamCall where
  kind : ProviderKind
  apiKey : Str
  baseURL : Str
  modelId : Str
  system : Str
  messages : List Msg
deriving DecidableEq

/-- The handler's response: a JSON error body `{ error: ... }` with a
status, or the annotated stream obtained from an upstream call. -/
inductive HandlerResponse where
  | json (status : Nat) (error : Str)
  | stream (call : StreamCall)
deriving DecidableEq

def defaultSystemPrompt : Str :=
  "你是一个专注于数学和GeoGebra的助手。帮助用户理解数学概念并使用GeoGebra进行可视化。请确保只使用有效的GeoGebra命令。".data

def errGeneric : Str := "处理请求时发生错误".data

def errMissingOpenRouterEnv : Str :=
  "未设置OPENROUTER_API_KEY环境变量。请在Vercel项目设置中添加此环境变量，或在设置页面配置自定义API密钥。".data

def errMissingKeyFree : Str :=
  "缺少OpenRouter API密钥。请在Vercel项目设置中添加OPENROUTER_API_KEY环境变量，或在设置页面配置自定义API密钥。".data

def errMissingKeyGeneric : Str :=
  "需要API密钥，请在设置中配置对应模型的API密钥".data

def placeholderStr : Str := "OPENROUTER_API_KEY_PLACEHOLDER".data

def openaiDomain : Str := "https://api.openai.com".data

/-- Embeds `configSettings?.modelType || "gpt-4o"`. -/
def resolvedModelType (cfg : Option ConfigSettingsJs) : Str :=
  jsOrStr (cfg.bind (fun c => c.modelType)) "gpt-4o".data

/-- Embeds `configSettings?.systemPrompt || <default>`. -/
def resolvedSystemPrompt (cfg : Option ConfigSettingsJs) : Str :=
  jsOrStr (cfg.bind (fun c => c.systemPrompt)) defaultSystemPrompt

/-- Embeds `configSettings?.customModels?.find(m => m.name === modelType)`. -/
def customLookup (cfg : Option ConfigSettingsJs) (mt : Str) : Option ModelConfigJs :=
  (cfg.bind (fun c => c.customModels)).bind
    (fun l => l.find? (fun m => m.name == mt))

structure ResolvedApi where
  domain : Str
  path : Str
  key : Str
deriving DecidableEq

/-- The `builtInConfigs[modelType] || builtInConfigs["gpt-4o"]` table. -/
def builtInApi (env : Env) (mt : Str) : ResolvedApi :=
  if mt = "gpt-4o".data then
    ⟨openaiDomain, "/v1/chat/completions".data, jsOrStr env.OPENAI_API_KEY []⟩
  else if mt = "claude-3-opus".data then
    ⟨"https://api.anthropic.com".data, "/v1/messages".data, jsOrStr env.ANTHROPIC_API_KEY []⟩
  else if mt = "deepseek-chat".data then
    ⟨"https://api.deepseek.com".data, "/v1/chat/completions".data, jsOrStr env.DEEPSEEK_API_KEY []⟩
  else
    ⟨openaiDomain, "/v1/chat/completions".data, jsOrStr env.OPENAI_API_KEY []⟩

/-- Adapter selection (route.ts lines 106-146): a custom model's
`provider` field decides; otherwise the identifier prefix decides. -/
def selectKind (customModel : Option ModelConfigJs) (mt : Str) : ProviderKind :=
  match customModel with
  | some cm =>
    if cm.provider == some "anthropic".data then .anthropic
    else if cm.provider == some "deepseek".data then .deepseek
    else .openai
  | none =>
    if isPref "claude".data mt then .anthropic
    else if isPref "deepseek".data mt then .deepseek
    else .openai

/-- The tail of the handler after the api config is resolved: the
`!apiConfig.key` check (route.ts lines 90-100), then adapter
construction and the upstream streaming call. -/
def finishPost (customModel : Option ModelConfigJs) (mt sp : Str) (msgs : List Msg)
    (key dom : Str) : HandlerResponse :=
  if key = [] then
    .json 400 (if mt = "deepseek-free".data then errMissingKeyFree else errMissingKeyGeneric)
  else
    .stream { kind := selectKind customModel mt, apiKey := key, baseURL := dom,
              modelId := mt, system := sp, messages := msgs }

/-- The body of `POST` inside the outermost `try`; `.error ()` is a thrown
exception (reaching the outermost `catch`).  Throw sites: `messages.length`
when `messages` is absent, and `customModel.apiConfig.key` when a matching
custom model has no `apiConfig`. -/
def postInner (env : Env) (messages : Option (List Msg))
    (cfg : Option ConfigSettingsJs) : Except Unit HandlerResponse :=
  match messages with
  | none => .error ()
  | some msgs =>
    let mt := resolvedModelType cfg
    let sp := resolvedSystemPrompt cfg
    match customLookup cfg mt with
    | some cm =>
      match cm.apiConfig with
      | none => .error ()
      | some ac =>
        let dom := jsOrStr ac.domain openaiDomain
        let _path := jsOrStr ac.path "/v1/chat/completions".data
        let key0 := jsOrStr ac.key []
        if key0 = placeholderStr then
          if truthyEnv env.OPENROUTER_API_KEY then
            .ok (finishPost (some cm) mt sp msgs (jsOrStr env.OPENROUTER_API_KEY []) dom)
          else
            .ok (.json 400 errMissingOpenRouterEnv)
        else
          .ok (finishPost (some cm) mt sp msgs key0 dom)
    | none =>
      let api := builtInApi env mt
      .ok (finishPost none mt sp msgs api.key api.domain)

/-- An inbound request after `req.json()`: either the body failed to parse
(the call threw), or it parsed and may or may not carry `messages` and
`configSettings`. -/
inductive PostInput where
  | badJson
  | goodJson (messages : Option (List Msg)) (configSettings : Option ConfigSettingsJs)
deriving DecidableEq

/-- Embeds `POST`: the outermost `try`/`catch` converts any thrown exception into
a status-500 JSON response with the generic message. -/
def POST (env : Env) (input : PostInput) : HandlerResponse :=
  match input with
  | .badJson => .json 500 errGeneric
  | .goodJson msgs cfg =>
    match postInner env msgs cfg with
    | .error _ => .json 500 errGeneric
    | .ok r => r

/-- The HTTP status of a response, when it is a JSON error response. -/
def statusOf : HandlerResponse → Option Nat
  | .json s _ => some s
  | .stream _ => none

/-- Copies `cfg` with every custom model's `apiConfig.path` removed (used to state
that the path component never influences the handler's behaviour). -/
def erasePathAc (ac : ApiConfigJs) : ApiConfigJs :=
  { ac with path := none }

def erasePathCm (m : ModelConfigJs) : ModelConfigJs :=
  { m with apiConfig := m.apiConfig.map erasePathAc }

def erasePathCfg (c : ConfigSettingsJs) : ConfigSettingsJs :=
  { c with customModels := c.customModels.map (fun l => l.map erasePathCm) }

def erasePaths : Option ConfigSettingsJs → Option ConfigSettingsJs :=
  Option.map erasePathCfg

/-- No backtick occurs in `s` (side condition locating fences uniquely). -/
abbrev noTick (s : Str) : Prop := ∀ c ∈ s, c ≠ tick

/-! ## Lemmas about the string machinery -/

theorem isPref_self_append (xs ys : Str) : isPref xs (xs ++ ys) = true := by
  induction xs with
  | nil => rfl
  | cons a as ih => simp [isPref, ih]

theorem isPref_eq_append (pat : Str) :
    ∀ s : Str, isPref pat s = true → s = pat ++ s.drop pat.length := by
  induction pat with
  | nil => intro s _; simp
  | cons a as ih =>
    intro s h
    cases s with
    | nil => simp [isPref] at h
    | cons b bs =>
      simp only [isPref, Bool.and_eq_true, beq_iff_eq] at h
      obtain ⟨rfl, h2⟩ := h
      simpa using ih bs h2

theorem findSplit_eq_append {pat : Str} :
    ∀ {s p r : Str}, findSplit pat s = some (p, r) → s = p ++ pat ++ r := by
  intro s
  induction s with
  | nil =>
    intro p r h
    simp only [findSplit] at h
    split at h
    · rename_i hp
      cases h
      simpa using isPref_eq_append pat [] hp
    · simp at h
  | cons c cs ih =>
    intro p r h
    simp only [findSplit] at h
    split at h
    · rename_i hp
      cases h
      simpa using isPref_eq_append pat (c :: cs) hp
    · rw [Option.map_eq_some'] at h
      obtain ⟨pr, hpr, heq⟩ := h
      cases heq
      have := ih (p := pr.1) (r := pr.2) (by rw [hpr])
      simp [this, List.append_assoc]

theorem findSplit_length {pat s p r : Str} (h : findSplit pat s = some (p, r)) :
    s.length = p.length + pat.length + r.length := by
  have := findSplit_eq_append h
  subst this
  simp [List.length_append]
  omega

theorem findSplit_pos {pat : Str} :
    ∀ {s : Str}, isPref pat s = true → findSplit pat s = some ([], s.drop pat.length) := by
  intro s h
  cases s with
  | nil => simp [findSplit, h]
  | cons c cs => simp [findSplit, h]

theorem findSplit_neg_cons {pat : Str} {c : Char} {cs : Str}
    (h : isPref pat (c :: cs) = false) :
    findSplit pat (c :: cs) = (findSplit pat cs).map (fun pr => (c :: pr.1, pr.2)) := by
  simp [findSplit, h]

theorem findSplit_tick {pat : Str} (hp : pat.head? = some tick) :
    ∀ pre : Str, noTick pre → ∀ rest : Str,
      findSplit pat (pre ++ (pat ++ rest)) = some (pre, rest) := by
  intro pre
  induction pre with
  | nil =>
    intro _ rest
    rw [List.nil_append, findSplit_pos (isPref_self_append pat rest), List.drop_left]
  | cons c pre' ih =>
    intro hnt rest
    have hc : c ≠ tick := hnt c (by simp)
    have hno : isPref pat (c :: (pre' ++ (pat ++ rest))) = false := by
      cases pat with
      | nil => simp at hp
      | cons p0 ptail =>
        have hp0 : p0 = tick := by simpa using hp
        simp [isPref, hp0, Ne.symm hc]
    rw [List.cons_append, findSplit_neg_cons hno,
      ih (fun a ha => hnt a (by simp [ha])) rest]
    rfl

theorem findSplit_none_of_noTick {pat : Str} (hp : pat.head? = some tick) :
    ∀ s : Str, noTick s → findSplit pat s = none := by
  intro s
  induction s with
  | nil =>
    intro _
    cases pat with
    | nil => simp at hp
    | cons p0 ptail => simp [findSplit, isPref]
  | cons c cs ih =>
    intro hnt
    have hc : c ≠ tick := hnt c (by simp)
    have hno : isPref pat (c :: cs) = false := by
      cases pat with
      | nil => simp at hp
      | cons p0 ptail =>
        have hp0 : p0 = tick := by simpa using hp
        simp [isPref, hp0, Ne.symm hc]
    rw [findSplit_neg_cons hno, ih (fun a ha => hnt a (by simp [ha]))]
    rfl

theorem containsSub_append_self (pat : Str) :
    ∀ a b : Str, containsSub pat (a ++ (pat ++ b)) = true := by
  intro a
  induction a with
  | nil =>
    intro b
    rw [List.nil_append, containsSub, findSplit_pos (isPref_self_append pat b)]
    rfl
  | cons c a' ih =>
    intro b
    rw [containsSub, List.cons_append]
    cases hno : isPref pat (c :: (a' ++ (pat ++ b))) with
    | true => rw [findSplit_pos hno]; rfl
    | false =>
      rw [findSplit_neg_cons hno, Option.isSome_map']
      exact ih b

theorem opener_length : opener.length = 12 := by decide

theorem closer_length : closer.length = 3 := by decide

theorem opener_head : opener.head? = some tick := by decide

theorem closer_head : closer.head? = some tick := by decide

/-- Any fuel above the remaining length computes the same block list. -/
theorem extractFuel_congr :
    ∀ f g s, s.length < f → s.length < g → extractFuel f s = extractFuel g s := by
  intro f
  induction f with
  | zero => intro g s h1 _; omega
  | succ f ih =>
    intro g s h1 h2
    cases g with
    | zero => omega
    | succ g =>
      simp only [extractFuel]
      cases hf1 : findSplit opener s with
      | none => rfl
      | some pr =>
        cases hf2 : findSplit closer pr.2 with
        | none => simp [hf2]
        | some pr2 =>
          have l1 := findSplit_length hf1
          have l2 := findSplit_length hf2
          rw [opener_length] at l1
          rw [closer_length] at l2
          have hlt : pr2.2.length < f := by omega
          simp only [hf2]
          rw [ih g pr2.2 hlt (by omega)]

theorem extractRaw_nil_of_no_opener {s : Str} (h : findSplit opener s = none) :
    extractRaw s = [] := by
  simp only [extractRaw, extractFuel, h]

theorem extractRaw_nil_of_no_closer {s : Str} {pr : Str × Str}
    (h1 : findSplit opener s = some pr) (h2 : findSplit closer pr.2 = none) :
    extractRaw s = [] := by
  simp only [extractRaw, extractFuel, h1, h2]

/-- One iteration of the regex loop on a well-delimited leading block. -/
theorem extractRaw_step (pre block rest : Str) (h1 : noTick pre) (h2 : noTick block) :
    extractRaw (pre ++ (opener ++ (block ++ (closer ++ rest)))) = block :: extractRaw rest := by
  have hs1 : findSplit opener (pre ++ (opener ++ (block ++ (closer ++ rest)))) =
      some (pre, block ++ (closer ++ rest)) := findSplit_tick opener_head pre h1 _
  have hs2 : findSplit closer (block ++ (closer ++ rest)) = some (block, rest) :=
    findSplit_tick closer_head block h2 rest
  simp only [extractRaw, extractFuel, hs1, hs2]
  have hlen : rest.length < (pre ++ (opener ++ (block ++ (closer ++ rest)))).length := by
    simp [List.length_append, opener_length, closer_length]
    omega
  rw [extractFuel_congr _ _ rest hlen (Nat.lt_succ_self _)]
  rfl

/-! ## Lemmas about the validator -/

theorem ne_nil_isEmpty_false {l : Str} (h : l ≠ []) : l.isEmpty = false := by
  cases l with
  | nil => exact absurd rfl h
  | cons a as => rfl

theorem errPre_ne_nil : errPre ≠ [] := by decide

theorem errPre_append_ne_nil (x : Str) : errPre ++ x ≠ [] := by
  intro h
  exact errPre_ne_nil (List.append_eq_nil.mp h).1

/-- The error list of `validateCommands` is exactly one unknown-command
message per invalid command, in input order. -/
theorem collectErrors_eq (cmds : List Str) :
    collectErrors cmds =
      (cmds.filter (fun c => !(validateCommand c).isValid)).map
        (fun c => errPre ++ commandName c) := by
  induction cmds with
  | nil => rfl
  | cons c cs ih =>
    cases hv : VALID_COMMANDS.contains (commandName c) with
    | true =>
      have hmem : commandName c ∈ VALID_COMMANDS := by simpa using hv
      have hvc : validateCommand c = { isValid := true, error := none } := by
        simp [validateCommand, hmem]
      simp only [collectErrors, hvc, List.filter_cons, Bool.not_true]
      simpa using ih
    | false =>
      have hmem : commandName c ∉ VALID_COMMANDS := by simpa using hv
      have hvc : validateCommand c =
          { isValid := false, error := some (errPre ++ commandName c) } := by
        simp [validateCommand, hmem]
      have hne : (errPre ++ commandName c).isEmpty = false :=
        ne_nil_isEmpty_false (errPre_append_ne_nil _)
      simp only [collectErrors, hvc, hne, List.filter_cons, Bool.not_false,
        Bool.and_true, Bool.not_true, Bool.not_eq_true', List.map_cons, if_true]
      simpa using ih

theorem collectErrors_nil_iff (cmds : List Str) :
    collectErrors cmds = [] ↔ ∀ c ∈ cmds, (validateCommand c).isValid = true := by
  rw [collectErrors_eq]
  constructor
  · intro h c hc
    have := List.map_eq_nil_iff.mp h
    have := List.filter_eq_nil_iff.mp this c hc
    simpa using this
  · intro h
    rw [List.filter_eq_nil_iff.mpr (fun c hc => by simp [h c hc])]
    rfl

theorem takeWhile_append_sep {p : Char → Bool} :
    ∀ pre : Str, (∀ a ∈ pre, p a = true) → ∀ (c : Char), p c = false → ∀ suf : Str,
      List.takeWhile p (pre ++ c :: suf) = pre := by
  intro pre
  induction pre with
  | nil => intro _ c hc suf; simp [List.takeWhile_cons, hc]
  | cons a pre' ih =>
    intro h c hc suf
    have ha : p a = true := h a (by simp)
    simp [List.takeWhile_cons, ha, ih (fun x hx => h x (by simp [hx])) c hc suf]

theorem takeWhile_of_all {p : Char → Bool} :
    ∀ l : Str, (∀ a ∈ l, p a = true) → List.takeWhile p l = l := by
  intro l
  induction l with
  | nil => intro _; rfl
  | cons a l' ih =>
    intro h
    have ha : p a = true := h a (by simp)
    simp [List.takeWhile_cons, ha, ih (fun x hx => h x (by simp [hx]))]

/-! ## Lemmas about the `POST` handler -/

theorem resolvedModelType_erase (cfg : Option ConfigSettingsJs) :
    resolvedModelType (erasePaths cfg) = resolvedModelType cfg := by
  cases cfg <;> rfl

theorem resolvedSystemPrompt_erase (cfg : Option ConfigSettingsJs) :
    resolvedSystemPrompt (erasePaths cfg) = resolvedSystemPrompt cfg := by
  cases cfg <;> rfl

theorem find?_map_erase (mt : Str) :
    ∀ l : List ModelConfigJs,
      (l.map erasePathCm).find? (fun m => m.name == mt) =
        (l.find? (fun m => m.name == mt)).map erasePathCm := by
  intro l
  induction l with
  | nil => rfl
  | cons m l' ih =>
    cases hm : (m.name == mt) with
    | true =>
      simp only [List.map_cons, List.find?_cons]
      have : (erasePathCm m).name = m.name := rfl
      rw [this, hm]
      rfl
    | false =>
      simp only [List.map_cons, List.find?_cons]
      have : (erasePathCm m).name = m.name := rfl
      rw [this, hm, ih]

theorem customLookup_erase (cfg : Option ConfigSettingsJs) (mt : Str) :
    customLookup (erasePaths cfg) mt = (customLookup cfg mt).map erasePathCm := by
  cases cfg with
  | none => rfl
  | some c =>
    cases hc : c.customModels with
    | none => simp [customLookup, erasePaths, erasePathCfg, hc]
    | some l =>
      simp only [customLookup, erasePaths, erasePathCfg, hc, Option.map_some,
        Option.map_some', Option.some_bind, find?_map_erase]

theorem finishPost_erase (cm : ModelConfigJs) (mt sp : Str) (msgs : List Msg) (key dom : Str) :
    finishPost (some (erasePathCm cm)) mt sp msgs key dom =
      finishPost (some cm) mt sp msgs key dom := by
  rfl

/-- The handler reads neither a custom model's `apiConfig.path` nor the
built-in preset's `path`: erasing all paths leaves the outcome unchanged. -/
theorem postInner_erase (env : Env) (messages : Option (List Msg))
    (cfg : Option ConfigSettingsJs) :
    postInner env messages (erasePaths cfg) = postInner env messages cfg := by
  cases messages with
  | none => rfl
  | some msgs =>
    simp only [postInner, resolvedModelType_erase, resolvedSystemPrompt_erase,
      customLookup_erase]
    cases hcm : customLookup cfg (resolvedModelType cfg) with
    | none => simp
    | some cm =>
      simp only [Option.map_some']
      cases hac : cm.apiConfig with
      | none => simp [erasePathCm, hac]
      | some ac =>
        simp only [erasePathCm, hac, Option.map_some']
        rfl

theorem finishPost_stream_kind {customModel : Option ModelConfigJs} {mt sp : Str}
    {msgs : List Msg} {key dom : Str} {call : StreamCall}
    (h : finishPost customModel mt sp msgs key dom = .stream call) :
    call.kind = selectKind customModel mt := by
  simp only [finishPost] at h
  split at h
  · exact absurd h (by simp)
  · cases h
    rfl

theorem postInner_stream_kind (env : Env) (msgs : List Msg)
    (cfg : Option ConfigSettingsJs) (call : StreamCall)
    (h : postInner env (some msgs) cfg = .ok (.stream call)) :
    call.kind = selectKind (customLookup cfg (resolvedModelType cfg)) (resolvedModelType cfg) := by
  cases hcm : customLookup cfg (resolvedModelType cfg) with
  | none =>
    simp only [postInner, hcm] at h
    exact finishPost_stream_kind (Except.ok.inj h)
  | some cm =>
    cases hac : cm.apiConfig with
    | none => simp [postInner, hcm, hac] at h
    | some ac =>
      simp only [postInner, hcm, hac] at h
      split at h
      · split at h
        · exact finishPost_stream_kind (Except.ok.inj h)
        · exact absurd (Except.ok.inj h) (by simp)
      · exact finishPost_stream_kind (Except.ok.inj h)

theorem POST_stream_kind (env : Env) (msgs : List Msg) (cfg : Option ConfigSettingsJs)
    (call : StreamCall) (h : POST env (.goodJson (some msgs) cfg) = .stream call) :
    call.kind = selectKind (customLookup cfg (resolvedModelType cfg)) (resolvedModelType cfg) := by
  rcases hpi : postInner env (some msgs) cfg with e | r
  · simp only [POST, hpi] at h
    exact absurd h (by simp)
  · simp only [POST, hpi] at h
    subst h
    exact postInner_stream_kind env msgs cfg call hpi

theorem findSplit_eq_none_of_not_contains {pat s : Str} (h : containsSub pat s = false) :
    findSplit pat s = none := by
  cases hf : findSplit pat s with
  | none => rfl
  | some q => rw [containsSub, hf] at h; simp at h

/-! ## Claims -/

/-- C6: for every sequence of command strings, `validateCommands` returns
`isValid = true` iff every command is valid, and `errors` contains exactly
one unknown-command message per invalid command, in input order, with no
entries for valid commands and no duplicate filtering. -/
theorem claim_C6 (cmds : List Str) :
    ((validateCommands cmds).isValid = true ↔
      ∀ c ∈ cmds, (validateCommand c).isValid = true) ∧
    (validateCommands cmds).errors =
      (cmds.filter (fun c => !(validateCommand c).isValid)).map
        (fun c => errPre ++ commandName c) := by
  constructor
  · simp only [validateCommands, beq_iff_eq, List.length_eq_zero]
    exact collectErrors_nil_iff cmds
  · simp only [validateCommands]
    exact collectErrors_eq cmds

/-- C6 witness: a concrete mixed list. -/
theorem claim_C6_witness :
    ((validateCommands ["Point(0,0)".data, "Foo(1)".data]).isValid = true ↔
      ∀ c ∈ ["Point(0,0)".data, "Foo(1)".data], (validateCommand c).isValid = true) ∧
    (validateCommands ["Point(0,0)".data, "Foo(1)".data]).errors =
      ((["Point(0,0)".data, "Foo(1)".data]).filter
        (fun c => !(validateCommand c).isValid)).map (fun c => errPre ++ commandName c) :=
  claim_C6 ["Point(0,0)".data, "Foo(1)".data]

/-- C3: a chunk in which every extracted command is valid (in particular a
chunk with no commands) passes through the stream transform unchanged:
exactly the original chunk is emitted and no warning is injected. -/
theorem claim_C3 (chunk : Str)
    (h : ∀ c ∈ extractCommands chunk, (validateCommand c).isValid = true) :
    transformChunk chunk = [chunk] := by
  have herr : collectErrors (extractCommands chunk) = [] :=
    (collectErrors_nil_iff _).mpr h
  simp [transformChunk, validateCommands, herr]

/-- C3 witness: a chunk with one valid command. -/
theorem claim_C3_witness :
    (∀ c ∈ extractCommands "```geogebra\nPoint(1,2)\n```".data,
      (validateCommand c).isValid = true) ∧
    transformChunk "```geogebra\nPoint(1,2)\n```".data =
      ["```geogebra\nPoint(1,2)\n```".data] :=
  ⟨by decide, claim_C3 _ (by decide)⟩

/-- C2 counterexample: for the chunk with Bar as its single (invalid)
command, the injected warning does not contain "unknown command: Bar" —
the code's message is the Chinese `未知的GeoGebra命令: Bar`. -/
theorem claim_C2_cex :
    (extractCommands "```geogebra\nBar(1,2)\n```".data = ["Bar(1,2)".data] ∧
     (validateCommand "Bar(1,2)".data).isValid = false ∧
     commandName "Bar(1,2)".data = "Bar".data) ∧
    containsSub "unknown command: Bar".data
      ((transformChunk "```geogebra\nBar(1,2)\n```".data).headD []) = false ∧
    (transformChunk "```geogebra\nBar(1,2)\n```".data).length = 2 := by
  decide

/-- C2 (amended): when a chunk contains exactly one invalid command, whose
extracted name is Bar, the transform emits exactly two chunks: first a
warning chunk containing `未知的GeoGebra命令: Bar` (the code's
unknown-command message, all collected error strings newline-joined),
then the original chunk unmodified. -/
theorem claim_C2 (chunk cmd : Str)
    (h1 : (extractCommands chunk).filter (fun c => !(validateCommand c).isValid) = [cmd])
    (h2 : commandName cmd = "Bar".data) :
    transformChunk chunk = [warningText [errPre ++ "Bar".data], chunk] ∧
    containsSub (errPre ++ "Bar".data) (warningText [errPre ++ "Bar".data]) = true := by
  have herr : collectErrors (extractCommands chunk) = [errPre ++ "Bar".data] := by
    rw [collectErrors_eq, h1]
    simp [h2]
  have hne : extractCommands chunk ≠ [] := by
    intro hnil
    rw [hnil] at h1
    simp at h1
  constructor
  · simp [transformChunk, validateCommands, herr, List.length_pos.mpr hne]
  · have hint : List.intercalate "\n".data [errPre ++ "Bar".data] = errPre ++ "Bar".data := by
      simp [List.intercalate]
    rw [warningText, hint, List.append_assoc]
    exact containsSub_append_self _ _ _

/-- C2 witness: the concrete Bar chunk satisfies the hypotheses. -/
theorem claim_C2_witness :
    ((extractCommands "```geogebra\nBar(1,2)\n```".data).filter
        (fun c => !(validateCommand c).isValid) = ["Bar(1,2)".data]) ∧
    commandName "Bar(1,2)".data = "Bar".data ∧
    (transformChunk "```geogebra\nBar(1,2)\n```".data =
        [warningText [errPre ++ "Bar".data], "```geogebra\nBar(1,2)\n```".data] ∧
      containsSub (errPre ++ "Bar".data) (warningText [errPre ++ "Bar".data]) = true) :=
  ⟨by decide, by decide, claim_C2 "```geogebra\nBar(1,2)\n```".data "Bar(1,2)".data
    (by decide) (by decide)⟩

/-- C5 counterexample: the unknown-command error text is the Chinese
`未知的GeoGebra命令: Foo`, not "unknown command: Foo". -/
theorem claim_C5_cex :
    validateCommands ["Foo(1,2)".data] ≠
      { isValid := false, errors := ["unknown command: Foo".data] } ∧
    validateCommands ["Foo(1,2)".data] =
      { isValid := false, errors := [errPre ++ "Foo".data] } := by
  decide

/-- C5 (amended): the command name is the segment before the first `(`,
whitespace or `,`, trimmed; a name in the fixed vocabulary (case-sensitive)
is valid with no error; an unknown name yields the error message
`未知的GeoGebra命令: {name}`; and validating `["Foo(1,2)"]` yields
`{isValid := false, errors := [未知的GeoGebra命令: Foo]}`. -/
theorem claim_C5 (cmd : Str) :
    (∀ (pre suf : Str) (c : Char), isCmdSep c = true →
       (∀ a ∈ pre, isCmdSep a = false) → cmd = pre ++ c :: suf →
         commandName cmd = jsTrim pre) ∧
    ((∀ a ∈ cmd, isCmdSep a = false) → commandName cmd = jsTrim cmd) ∧
    (commandName cmd ∈ VALID_COMMANDS →
       validateCommand cmd = { isValid := true, error := none }) ∧
    (commandName cmd ∉ VALID_COMMANDS →
       validateCommand cmd = { isValid := false, error := some (errPre ++ commandName cmd) }) ∧
    validateCommands ["Foo(1,2)".data] =
      { isValid := false, errors := [errPre ++ "Foo".data] } := by
  refine ⟨?_, ?_, ?_, ?_, by decide⟩
  · intro pre suf c hc hpre hcmd
    rw [commandName, hcmd,
      takeWhile_append_sep pre (fun a ha => by simp [hpre a ha]) c (by simp [hc]) suf]
  · intro h
    rw [commandName, takeWhile_of_all cmd (fun a ha => by simp [h a ha])]
  · intro h
    simp [validateCommand, h]
  · intro h
    simp [validateCommand, h]

/-- C5 witness: concrete valid and invalid commands. -/
theorem claim_C5_witness :
    validateCommand "Point(1,2)".data = { isValid := true, error := none } ∧
    validateCommand "Foo(1,2)".data =
      { isValid := false, error := some (errPre ++ "Foo".data) } ∧
    commandName "Circle 0 1".data = jsTrim "Circle".data :=
  ⟨(claim_C5 "Point(1,2)".data).2.2.1 (by decide),
   (claim_C5 "Foo(1,2)".data).2.2.2.1 (by decide),
   (claim_C5 "Circle 0 1".data).1 "Circle".data "0 1".data ' ' (by decide) (by decide) (by decide)⟩

/-- C4: the extractor returns the empty sequence on texts with no closed
fenced block; on a text with one fenced block it returns exactly the
block's trimmed non-blank lines in original order (one string per
non-blank line); blocks are concatenated in document order; and an
unterminated fenced block contributes no commands. -/
theorem claim_C4 :
    (∀ s : Str, (¬ ∃ a b c, s = a ++ opener ++ b ++ closer ++ c) →
       extractCommands s = []) ∧
    (∀ pre block post : Str, noTick pre → noTick block →
       containsSub opener post = false →
       extractCommands (pre ++ opener ++ block ++ closer ++ post) = blockCommands block ∧
       (blockCommands block).length =
         ((splitOnNl block).map jsTrim).countP (fun line => decide (line ≠ []))) ∧
    (∀ pre b1 mid b2 post : Str, noTick pre → noTick b1 → noTick mid → noTick b2 →
       containsSub opener post = false →
       extractCommands
           (pre ++ opener ++ b1 ++ closer ++ mid ++ opener ++ b2 ++ closer ++ post) =
         blockCommands b1 ++ blockCommands b2) ∧
    (∀ pre rest : Str, noTick pre → containsSub closer rest = false →
       extractCommands (pre ++ opener ++ rest) = []) := by
  refine ⟨?_, ?_, ?_, ?_⟩
  · intro s hno
    cases hf1 : findSplit opener s with
    | none => simp [extractCommands, extractRaw_nil_of_no_opener hf1]
    | some pr =>
      cases hf2 : findSplit closer pr.2 with
      | none => simp [extractCommands, extractRaw_nil_of_no_closer hf1 hf2]
      | some pr2 =>
        exfalso
        apply hno
        refine ⟨pr.1, pr2.1, pr2.2, ?_⟩
        have e1 := findSplit_eq_append (p := pr.1) (r := pr.2) (by rw [hf1])
        have e2 := findSplit_eq_append (p := pr2.1) (r := pr2.2) (by rw [hf2])
        rw [e1, e2]
        simp [List.append_assoc]
  · intro pre block post h1 h2 h3
    have hpost : findSplit opener post = none := findSplit_eq_none_of_not_contains h3
    constructor
    · have hstep := extractRaw_step pre block post h1 h2
      rw [show pre ++ opener ++ block ++ closer ++ post =
          pre ++ (opener ++ (block ++ (closer ++ post))) by simp [List.append_assoc]]
      simp [extractCommands, hstep, extractRaw_nil_of_no_opener hpost]
    · rw [blockCommands, ← List.countP_eq_length_filter]
      exact List.countP_congr
        (fun a _ => by simp [List.length_pos])
  · intro pre b1 mid b2 post h1 hb1 hmid hb2 h3
    have hpost : findSplit opener post = none := findSplit_eq_none_of_not_contains h3
    have step1 := extractRaw_step pre b1 (mid ++ (opener ++ (b2 ++ (closer ++ post)))) h1 hb1
    have step2 := extractRaw_step mid b2 post hmid hb2
    rw [show pre ++ opener ++ b1 ++ closer ++ mid ++ opener ++ b2 ++ closer ++ post =
        pre ++ (opener ++ (b1 ++ (closer ++ (mid ++ (opener ++ (b2 ++ (closer ++ post)))))))
        by simp [List.append_assoc]]
    simp [extractCommands, step1, step2, extractRaw_nil_of_no_opener hpost]
  · intro pre rest h1 h3
    have hcl : findSplit closer rest = none := findSplit_eq_none_of_not_contains h3
    have hop : findSplit opener (pre ++ (opener ++ rest)) = some (pre, rest) :=
      findSplit_tick opener_head pre h1 rest
    rw [show pre ++ opener ++ rest = pre ++ (opener ++ rest) by simp [List.append_assoc]]
    simp [extractCommands, extractRaw_nil_of_no_closer hop hcl]

/-- C4 witness: a concrete text with one fenced block with two non-blank
and two blank lines. -/
theorem claim_C4_witness :
    noTick "intro ".data ∧ noTick " A \n\n B\n".data ∧
    containsSub opener " tail".data = false ∧
    extractCommands ("intro ".data ++ opener ++ " A \n\n B\n".data ++ closer ++ " tail".data) =
      blockCommands " A \n\n B\n".data ∧
    blockCommands " A \n\n B\n".data = ["A".data, "B".data] :=
  ⟨by decide, by decide, by decide,
   (claim_C4.2.1 "intro ".data " A \n\n B\n".data " tail".data
     (by decide) (by decide) (by decide)).1,
   by decide⟩

/-- C1 counterexample: a request whose body fails to parse gets status 500
(the generic outer catch), not a 400-equivalent client error. -/
theorem claim_C1_cex :
    POST ⟨none, none, none, none⟩ .badJson = .json 500 errGeneric ∧
    statusOf (POST ⟨none, none, none, none⟩ .badJson) ≠ some 400 := by
  decide

/-- C1 (amended): a request whose body fails to parse as JSON, or whose
parsed body lacks the message list, is answered by the outermost catch
with the 500-equivalent generic JSON error body `{ error: string }`, and
no upstream streaming call is made. -/
theorem claim_C1 :
    (∀ env : Env, POST env .badJson = .json 500 errGeneric) ∧
    (∀ (env : Env) (cfg : Option ConfigSettingsJs),
       POST env (.goodJson none cfg) = .json 500 errGeneric) ∧
    (∀ (env : Env) (cfg : Option ConfigSettingsJs) (call : StreamCall),
       POST env (.goodJson none cfg) ≠ .stream call) := by
  refine ⟨fun env => rfl, fun env cfg => rfl, fun env cfg call h => ?_⟩
  simp [POST, postInner] at h

/-- C1 witness: the missing-message-list case at a concrete input. -/
theorem claim_C1_witness :
    POST ⟨none, none, none, none⟩ (.goodJson none none) = .json 500 errGeneric :=
  claim_C1.2.1 ⟨none, none, none, none⟩ none

/-- C9: a matching custom model whose `apiConfig` is absent makes the
handler throw at the non-optional-chained `customModel.apiConfig.key`
read, and the outermost catch turns this into the generic 500 response,
not a 400-equivalent missing-credential error. -/
theorem claim_C9 (env : Env) (msgs : List Msg) (cfg : Option ConfigSettingsJs)
    (cm : ModelConfigJs)
    (h1 : customLookup cfg (resolvedModelType cfg) = some cm)
    (h2 : cm.apiConfig = none) :
    postInner env (some msgs) cfg = .error () ∧
    POST env (.goodJson (some msgs) cfg) = .json 500 errGeneric := by
  have hpi : postInner env (some msgs) cfg = .error () := by
    simp [postInner, h1, h2]
  exact ⟨hpi, by simp [POST, hpi]⟩

/-- C9 witness: concrete config whose matching custom model has no
`apiConfig`. -/
theorem claim_C9_witness :
    customLookup (some ⟨some "m".data, none, some [⟨"m".data, none, none, none⟩]⟩)
        (resolvedModelType (some ⟨some "m".data, none, some [⟨"m".data, none, none, none⟩]⟩)) =
      some ⟨"m".data, none, none, none⟩ ∧
    POST ⟨none, none, none, none⟩
        (.goodJson (some [])
          (some ⟨some "m".data, none, some [⟨"m".data, none, none, none⟩]⟩)) =
      .json 500 errGeneric :=
  ⟨by decide,
   (claim_C9 ⟨none, none, none, none⟩ []
     (some ⟨some "m".data, none, some [⟨"m".data, none, none, none⟩]⟩)
     ⟨"m".data, none, none, none⟩ (by decide) rfl).2⟩

/-- C10: the `path` component of any `apiConfig` never influences the
handler's observable behaviour: two requests identical up to the path
values produce identical responses. -/
theorem claim_C10 (env : Env) (msgs : Option (List Msg))
    (cfg1 cfg2 : Option ConfigSettingsJs) (h : erasePaths cfg1 = erasePaths cfg2) :
    POST env (.goodJson msgs cfg1) = POST env (.goodJson msgs cfg2) := by
  simp only [POST]
  rw [← postInner_erase env msgs cfg1, ← postInner_erase env msgs cfg2, h]

/-- C10 witness: two configs differing only in the custom model's path. -/
theorem claim_C10_witness :
    erasePaths (some ⟨some "m".data, none, some [⟨"m".data, none, none,
        some ⟨none, some "/v1/a".data, some "k".data⟩⟩]⟩) =
      erasePaths (some ⟨some "m".data, none, some [⟨"m".data, none, none,
        some ⟨none, some "/v2/b".data, some "k".data⟩⟩]⟩) ∧
    POST ⟨none, none, none, none⟩
        (.goodJson (some []) (some ⟨some "m".data, none, some [⟨"m".data, none, none,
          some ⟨none, some "/v1/a".data, some "k".data⟩⟩]⟩)) =
      POST ⟨none, none, none, none⟩
        (.goodJson (some []) (some ⟨some "m".data, none, some [⟨"m".data, none, none,
          some ⟨none, some "/v2/b".data, some "k".data⟩⟩]⟩)) :=
  ⟨by decide,
   claim_C10 ⟨none, none, none, none⟩ (some [])
     (some ⟨some "m".data, none, some [⟨"m".data, none, none,
       some ⟨none, some "/v1/a".data, some "k".data⟩⟩]⟩)
     (some ⟨some "m".data, none, some [⟨"m".data, none, none,
       some ⟨none, some "/v2/b".data, some "k".data⟩⟩]⟩)
     (by decide)⟩

/-- C8 counterexample: with no matching custom model, the identifier
"anthropic-x" begins with the provider name "anthropic", yet the handler
selects the OpenAI-compatible adapter (the prefix table is
claude/deepseek, not provider names). -/
theorem claim_C8_cex :
    POST ⟨none, some "k".data, none, none⟩
        (.goodJson (some []) (some ⟨some "anthropic-x".data, none, none⟩)) =
      .stream ⟨.openai, "k".data, openaiDomain, "anthropic-x".data, defaultSystemPrompt, []⟩ ∧
    isPref "anthropic".data "anthropic-x".data = true ∧
    customLookup (some ⟨some "anthropic-x".data, none, none⟩) "anthropic-x".data = none ∧
    ProviderKind.openai ≠ ProviderKind.anthropic := by
  decide

/-- C8 (amended): a matching custom model's `provider` field alone selects
the adapter (anthropic, deepseek, otherwise OpenAI-compatible),
regardless of the identifier; without a matching custom model the
identifier prefix decides: "claude" selects Anthropic, "deepseek" selects
DeepSeek, anything else the OpenAI-compatible adapter; and every stream
response of the handler carries exactly the adapter so selected. -/
theorem claim_C8 :
    (∀ (cm : ModelConfigJs) (mt : Str),
       (cm.provider = some "anthropic".data → selectKind (some cm) mt = .anthropic) ∧
       (cm.provider = some "deepseek".data → selectKind (some cm) mt = .deepseek) ∧
       (cm.provider ≠ some "anthropic".data → cm.provider ≠ some "deepseek".data →
          selectKind (some cm) mt = .openai)) ∧
    (∀ mt : Str,
       (isPref "claude".data mt = true → selectKind none mt = .anthropic) ∧
       (isPref "claude".data mt = false → isPref "deepseek".data mt = true →
          selectKind none mt = .deepseek) ∧
       (isPref "claude".data mt = false → isPref "deepseek".data mt = false →
          selectKind none mt = .openai)) ∧
    (∀ (env : Env) (msgs : List Msg) (cfg : Option ConfigSettingsJs) (call : StreamCall),
       POST env (.goodJson (some msgs) cfg) = .stream call →
         call.kind = selectKind (customLookup cfg (resolvedModelType cfg))
           (resolvedModelType cfg)) := by
  refine ⟨?_, ?_, POST_stream_kind⟩
  · intro cm mt
    refine ⟨fun h => by simp [selectKind, h], fun h => by simp [selectKind, h],
      fun h1 h2 => by simp [selectKind, h1, h2]⟩
  · intro mt
    refine ⟨fun h => by simp [selectKind, h], fun h1 h2 => by simp [selectKind, h1, h2],
      fun h1 h2 => by simp [selectKind, h1, h2]⟩

/-- C8 witness: concrete custom-provider and prefix selections, and a
concrete stream response carrying the selected adapter. -/
theorem claim_C8_witness :
    selectKind (some ⟨"m".data, some "anthropic".data, none, none⟩) "m".data = .anthropic ∧
    selectKind none "claude-3-opus".data = .anthropic ∧
    (⟨ProviderKind.openai, "k".data, openaiDomain, "gpt-4o".data, defaultSystemPrompt, []⟩ :
        StreamCall).kind =
      selectKind (customLookup none (resolvedModelType none)) (resolvedModelType none) :=
  ⟨(claim_C8.1 ⟨"m".data, some "anthropic".data, none, none⟩ "m".data).1 rfl,
   (claim_C8.2.1 "claude-3-opus".data).1 (by decide),
   claim_C8.2.2 ⟨none, some "k".data, none, none⟩ [] none
     ⟨ProviderKind.openai, "k".data, openaiDomain, "gpt-4o".data, defaultSystemPrompt, []⟩
     (by decide)⟩

/-- C7: for a matching custom model whose key is the
OPENROUTER_API_KEY_PLACEHOLDER sentinel, an unset environment variable
yields a 400 missing-credential response that names the variable and
points to the settings page, and an environment value "sk-test" resolves
the key to "sk-test" for the upstream call. -/
theorem claim_C7 (env : Env) (msgs : List Msg) (sp mty prov dom pth : Option Str)
    (n : Str) (hn : n ≠ []) :
    (env.OPENROUTER_API_KEY = none →
       POST env (.goodJson (some msgs)
           (some ⟨some n, sp, some [⟨n, prov, mty, some ⟨dom, pth, some placeholderStr⟩⟩]⟩)) =
         .json 400 errMissingOpenRouterEnv ∧
       containsSub "OPENROUTER_API_KEY".data errMissingOpenRouterEnv = true ∧
       containsSub "设置页面".data errMissingOpenRouterEnv = true) ∧
    (env.OPENROUTER_API_KEY = some "sk-test".data →
       POST env (.goodJson (some msgs)
           (some ⟨some n, sp, some [⟨n, prov, mty, some ⟨dom, pth, some placeholderStr⟩⟩]⟩)) =
         .stream { kind := selectKind (some ⟨n, prov, mty, some ⟨dom, pth, some placeholderStr⟩⟩) n,
                   apiKey := "sk-test".data,
                   baseURL := jsOrStr dom openaiDomain,
                   modelId := n,
                   system := jsOrStr sp defaultSystemPrompt,
                   messages := msgs }) := by
  have hmt : resolvedModelType
      (some ⟨some n, sp, some [⟨n, prov, mty, some ⟨dom, pth, some placeholderStr⟩⟩]⟩) = n := by
    simp [resolvedModelType, jsOrStr, hn]
  have hcl : customLookup
      (some ⟨some n, sp, some [⟨n, prov, mty, some ⟨dom, pth, some placeholderStr⟩⟩]⟩) n =
      some ⟨n, prov, mty, some ⟨dom, pth, some placeholderStr⟩⟩ := by
    simp [customLookup, List.find?]
  have hkey0 : jsOrStr (some placeholderStr) [] = placeholderStr := by decide
  have hkne : "sk-test".data ≠ ([] : Str) := by decide
  constructor
  · intro h
    refine ⟨?_, by decide, by decide⟩
    simp only [POST, postInner, hmt, hcl, hkey0, h]
    simp [truthyEnv]
  · intro h
    simp only [POST, postInner, hmt, hcl, hkey0, h]
    simp [truthyEnv, finishPost, jsOrStr, hkne, ne_nil_isEmpty_false hkne,
      resolvedSystemPrompt]

/-- C7 witness: model "x" with the placeholder key, environment unset and
then set to "sk-test". -/
theorem claim_C7_witness :
    (POST ⟨none, none, none, none⟩
        (.goodJson (some [])
          (some ⟨some "x".data, none, some [⟨"x".data, none, none,
            some ⟨none, none, some placeholderStr⟩⟩]⟩)) =
      .json 400 errMissingOpenRouterEnv) ∧
    POST ⟨some "sk-test".data, none, none, none⟩
        (.goodJson (some [])
          (some ⟨some "x".data, none, some [⟨"x".data, none, none,
            some ⟨none, none, some placeholderStr⟩⟩]⟩)) =
      .stream { kind := selectKind (some ⟨"x".data, none, none,
                  some ⟨none, none, some placeholderStr⟩⟩) "x".data,
                apiKey := "sk-test".data, baseURL := jsOrStr none openaiDomain,
                modelId := "x".data, system := jsOrStr none defaultSystemPrompt,
                messages := [] } :=
  ⟨((claim_C7 ⟨none, none, none, none⟩ [] none none none none none "x".data
      (by decide)).1 rfl).1,
   (claim_C7 ⟨some "sk-test".data, none, none, none⟩ [] none none none none none "x".data
      (by decide)).2 rfl⟩
